import Mathlib

/-!
Verification of the `polyv/utils` helper library against its specification.

The embedding models the JavaScript value universe as the inductive type
`JSVal` (numbers are modelled as rationals so that the `% 1 === 0`
integrality test of `isArrayLike` keeps its meaning; circular references
are not representable in an inductive value model).  Fallible functions
return `Except String`; the string carries the thrown error message.

Sources embedded:
  - `src/boolean.js`: `boolToYN`, `ynToBool`, `allY`, `someY`, `allN`, `someN`;
  - the `lang` module: `isArrayLike`, `isEmptyData`, `extend`, `cloneJSON`,
    `tryParseJSON` (its helpers `isObject`, `hasOwnProp`, `extendSingle` are
    imported from `./internal/core`, which is not part of the sources; those
    are modelled from the spec, as marked on their doc comments).
-/

namespace PolyvUtils

/-- The JavaScript value universe used by the library: `undefined`, `null`,
booleans, numbers (modelled as rationals), strings, arrays, plain objects
given by their ordered list of own enumerable properties, and callables
(`func`, kept opaque: none of the library functions inspects a function
value beyond its `typeof`). -/
inductive JSVal where
  | undefined : JSVal
  | null : JSVal
  | bool : Bool → JSVal
  | num : Rat → JSVal
  | str : String → JSVal
  | arr : List JSVal → JSVal
  | obj : List (String × JSVal) → JSVal
  | func : JSVal
deriving Repr

/-- ASCII uppercasing of one character, as `String.prototype.toUpperCase`
acts on the ASCII range (the only range the flag domain uses). -/
def jsCharToUpper (c : Char) : Char :=
  if 97 ≤ c.toNat ∧ c.toNat ≤ 122 then Char.ofNat (c.toNat - 32) else c

/-- Model of `String.prototype.toUpperCase` (ASCII range). -/
def jsToUpperCase (s : String) : String :=
  String.mk (s.data.map jsCharToUpper)

/-- JavaScript whitespace characters relevant to `String.prototype.trim`:
space, tab, LF, VT, FF, CR, NBSP. -/
def jsIsSpace (c : Char) : Bool :=
  c.toNat = 32 ∨ c.toNat = 9 ∨ c.toNat = 10 ∨ c.toNat = 11 ∨
    c.toNat = 12 ∨ c.toNat = 13 ∨ c.toNat = 160

/-- Model of `String.prototype.trim`: drop leading and trailing whitespace. -/
def jsTrim (s : String) : String :=
  String.mk (((s.data.dropWhile jsIsSpace).reverse.dropWhile jsIsSpace).reverse)

/-- Decimal rendering of a natural number. -/
def natToString (n : Nat) : String :=
  String.mk (Nat.toDigits 10 n)

/-- Decimal rendering of an integer. -/
def intToString (i : Int) : String :=
  if i < 0 then ("-") ++ natToString i.natAbs else natToString i.natAbs

mutual

/-- Model of the `String(value)` coercion.  The rendering of non-integer
numbers and of function sources is approximated (a faithful rendering is
irrelevant to the library: such strings consist of digits, signs, dots and
brackets, never a Y/N flag); arrays render as their comma-joined elements
with `null`/`undefined` elements rendered empty, exactly as
`Array.prototype.toString`. -/
def jsToString : JSVal → String
  | .undefined => ("undefined")
  | .null => ("null")
  | .bool b => if b then ("true") else ("false")
  | .num q =>
      if q.den = 1 then intToString q.num
      else intToString q.num ++ (".") ++ natToString q.den
  | .str s => s
  | .arr xs => jsArrToString xs
  | .obj _ => ("[object Object]")
  | .func => ("function () [native code]")

/-- Comma-join of `Array.prototype.toString`, `null`/`undefined` elements
rendered as the empty string. -/
def jsArrToString : List JSVal → String
  | [] => ("")
  | [.null] => ("")
  | [.undefined] => ("")
  | [v] => jsToString v
  | .null :: v :: vs => (",") ++ jsArrToString (v :: vs)
  | .undefined :: v :: vs => (",") ++ jsArrToString (v :: vs)
  | u :: v :: vs => jsToString u ++ (",") ++ jsArrToString (v :: vs)

end

/-! ### `src/boolean.js` -/

/-- Embedding of `boolToYN` from `src/boolean.js`: requires a value of boolean type and
maps `true` to `"Y"`, `false` to `"N"`; throws on any non-boolean. -/
def boolToYN (value : JSVal) : Except String String :=
  match value with
  | .bool b => .ok (if b then ("Y") else ("N"))
  | _ => .error ("The value argument must be a boolean type")

/-- Embedding of `ynToBool` from `src/boolean.js`: coerces the value to a string,
uppercases it, requires the result to be exactly `"Y"` or `"N"`, and maps
`"Y"` to `true`, `"N"` to `false`. -/
def ynToBool (value : JSVal) : Except String Bool :=
  let s := jsToUpperCase (jsToString value)
  if s ≠ ("Y") ∧ s ≠ ("N") then
    .error ("The value argument must be \"Y\" or \"N\"")
  else
    .ok (s = ("Y"))

/-- Embedding of `allY` from `src/boolean.js`: `values.every(ynToBool)`.  `every` stops
at the first element whose callback result is falsy; a thrown callback
error propagates. -/
def allY : List JSVal → Except String Bool
  | [] => .ok true
  | v :: vs =>
    match ynToBool v with
    | .error e => .error e
    | .ok true => allY vs
    | .ok false => .ok false

/-- Embedding of `someY` from `src/boolean.js`: `values.some(ynToBool)`.  `some` stops at
the first element whose callback result is truthy; a thrown callback error
propagates. -/
def someY : List JSVal → Except String Bool
  | [] => .ok false
  | v :: vs =>
    match ynToBool v with
    | .error e => .error e
    | .ok true => .ok true
    | .ok false => someY vs

/-- Embedding of `allN` from `src/boolean.js`: `values.every(v => !ynToBool(v))`. -/
def allN : List JSVal → Except String Bool
  | [] => .ok true
  | v :: vs =>
    match ynToBool v with
    | .error e => .error e
    | .ok true => .ok false
    | .ok false => allN vs

/-- Embedding of `someN` from `src/boolean.js`: `values.some(v => !ynToBool(v))`. -/
def someN : List JSVal → Except String Bool
  | [] => .ok false
  | v :: vs =>
    match ynToBool v with
    | .error e => .error e
    | .ok true => someN vs
    | .ok false => .ok true

/-! ### The `lang` module -/

/-- The loose `obj == null` comparison: true exactly for `null` and
`undefined`. -/
def isNullish : JSVal → Bool
  | .null => true
  | .undefined => true
  | _ => false

/-- The `typeof obj === 'function'` test. -/
def isFunction : JSVal → Bool
  | .func => true
  | _ => false

/-- Modelled from the spec: `isObject`, imported by the `lang` module from
`./internal/core` (not among the sources), is the capability check for
plain objects ("object-type check") whose passing values are tested by
own-property enumeration. -/
def isObject : JSVal → Bool
  | .obj _ => true
  | _ => false

/-- Modelled from the spec: `hasOwnProp`, imported from `./internal/core`
(not among the sources), is true iff `prop` is an own (non-inherited)
property of `obj`; prototypes are not part of the value model, so an
object's own properties are exactly its field list. -/
def hasOwnProp (obj : JSVal) (prop : String) : Bool :=
  match obj with
  | .obj fs => fs.any (fun kv => kv.1 == prop)
  | _ => false

/-- The `obj.length` property access, as used by `isArrayLike`: strings and
arrays expose their length as a number, plain objects their `length` field
when present; functions expose their arity (kept abstract as zero, which is
irrelevant because every use is guarded by the `typeof obj !== 'function'`
check); other values have no `length` property. -/
def getLength : JSVal → JSVal
  | .str s => .num (s.length : Rat)
  | .arr xs => .num (xs.length : Rat)
  | .obj fs =>
      match fs.find? (fun kv => kv.1 == ("length")) with
      | some kv => kv.2
      | none => .undefined
  | .func => .num 0
  | _ => .undefined

/-- Embedding of `isArrayLike` from the `lang` module: non-null, not a function, and the
`length` property is a number that is non-negative and integral
(`obj.length % 1 === 0`; a rational is congruent to zero modulo one exactly
when its denominator is one). -/
def isArrayLike (obj : JSVal) : Bool :=
  !(isNullish obj) && !(isFunction obj) &&
    (match getLength obj with
     | .num n => decide (0 ≤ n) && decide (n.den = 1)
     | _ => false)

/-- Embedding of `isEmptyData` from the `lang` module: `null`/`undefined`; or a string
trimming to empty; or an array (`Array.isArray`) of length zero; or an
`isObject` value none of whose enumerated keys is an own property; false
otherwise. -/
def isEmptyData (value : JSVal) : Bool :=
  if isNullish value then true
  else match value with
    | .str s => jsTrim s == ("")
    | .arr xs => xs.isEmpty
    | .obj fs => !(fs.any (fun kv => hasOwnProp (.obj fs) kv.1))
    | _ => false

/-- Property assignment `target[key] = v` on an ordered field list: an
existing key is overwritten in place (JavaScript preserves the insertion
position of an overwritten property); a new key is appended. -/
def setProp : List (String × JSVal) → String → JSVal → List (String × JSVal)
  | [], k, v => [(k, v)]
  | (k', v') :: fs, k, v =>
      if k' == k then (k, v) :: fs else (k', v') :: setProp fs k v

/-- Modelled from the spec: `extendSingle`, imported from `./internal/core`
(not among the sources), copies each own enumerable property of one source
onto the target in property order; `null`/`undefined` sources are skipped,
and non-object sources contribute no own enumerable properties (string
index properties are outside the model).  A non-object target is returned
unchanged (property writes on primitives are silently lost). -/
def extendSingle (target : JSVal) (source : JSVal) : JSVal :=
  match target, source with
  | .obj fs, .obj sfs =>
      .obj (sfs.foldl (fun acc kv => setProp acc kv.1 kv.2) fs)
  | t, _ => t

/-- Embedding of `extend` from the `lang` module: throws when the target is
`null`/`undefined`, and otherwise folds `extendSingle` over the sources in
order, returning the target. -/
def extend (target : JSVal) (sources : List JSVal) : Except String JSVal :=
  if isNullish target then
    .error ("The target argument cannot be null or undefined")
  else
    .ok (sources.foldl extendSingle target)

mutual

/-- Model of the composite `JSON.parse(JSON.stringify(v))` used by
`cloneJSON`: `none` when `JSON.stringify` yields no JSON text (the value
serializes to `undefined`: a bare function or `undefined` itself, so the
subsequent parse throws), otherwise the value with non-serializable array
elements replaced by `null` and non-serializable object fields dropped, per
the standard JSON-encoding rules.  Circular structures, on which
`JSON.stringify` itself throws, are not representable in the inductive
value model. -/
def jsonRoundTrip : JSVal → Option JSVal
  | .undefined => none
  | .func => none
  | .null => some .null
  | .bool b => some (.bool b)
  | .num q => some (.num q)
  | .str s => some (.str s)
  | .arr xs => some (.arr (jsonRoundTripList xs))
  | .obj fs => some (.obj (jsonRoundTripFields fs))

/-- Array elements under the JSON round trip: a non-serializable element
becomes `null`. -/
def jsonRoundTripList : List JSVal → List JSVal
  | [] => []
  | x :: xs => (jsonRoundTrip x).getD .null :: jsonRoundTripList xs

/-- Object fields under the JSON round trip: a field with a
non-serializable value is dropped. -/
def jsonRoundTripFields : List (String × JSVal) → List (String × JSVal)
  | [] => []
  | (k, v) :: fs =>
      match jsonRoundTrip v with
      | some w => (k, w) :: jsonRoundTripFields fs
      | none => jsonRoundTripFields fs

end

/-- Embedding of `cloneJSON` from the `lang` module: returns `null`/`undefined`
arguments unchanged, otherwise evaluates `JSON.parse(JSON.stringify(obj))`;
when the serialization yields no JSON text, `JSON.parse` receives the
string `"undefined"` and throws a syntax error. -/
def cloneJSON (obj : JSVal) : Except String JSVal :=
  if isNullish obj then .ok obj
  else
    match jsonRoundTrip obj with
    | some v => .ok v
    | none => .error ("SyntaxError: Unexpected token u in JSON at position 0")

/-- Embedding of `tryParseJSON` from the `lang` module, parametric in the `JSON.parse`
builtin (`parse` returns the parsed value or the thrown error value).  The
result pairs the function's return value with the error delivered to the
`onError` callback, `none` when the callback is not invoked: on a
successful parse the parsed value is returned and no callback runs; on a
parse failure the error is caught, handed to the callback, and the
never-assigned `result` (`undefined`) is returned.  The function itself
throws nothing. -/
def tryParseJSON (parse : String → Except JSVal JSVal) (str : String) :
    JSVal × Option JSVal :=
  match parse str with
  | .ok r => (r, none)
  | .error e => (.undefined, some e)

/-! ### Specification-side definitions

These render the spec's wording, to be compared with the definitions
embedded from the source. -/

mutual

/-- A value of the JSON data model, in the spec's words: objects, arrays,
strings, numbers, booleans, `null`; no functions and no `undefined` inside
nested structures. -/
def isJSONCompatible : JSVal → Bool
  | .undefined => false
  | .func => false
  | .null => true
  | .bool _ => true
  | .num _ => true
  | .str _ => true
  | .arr xs => isJSONCompatibleList xs
  | .obj fs => isJSONCompatibleFields fs

/-- Every element of the list is JSON-compatible. -/
def isJSONCompatibleList : List JSVal → Bool
  | [] => true
  | x :: xs => isJSONCompatible x && isJSONCompatibleList xs

/-- Every field value of the list is JSON-compatible. -/
def isJSONCompatibleFields : List (String × JSVal) → Bool
  | [] => true
  | (_, v) :: fs => isJSONCompatible v && isJSONCompatibleFields fs

end

/-- The claim's characterization of `isArrayLike`: non-null, not a
callable, and the `length` property is a non-negative integer. -/
def isArrayLikeSpec (v : JSVal) : Prop :=
  v ≠ .null ∧ v ≠ .undefined ∧ v ≠ .func ∧
    ∃ q : Rat, getLength v = .num q ∧ 0 ≤ q ∧ q.den = 1

/-- The claim's characterization of emptiness, as frozen: null/absent, an
all-whitespace string, an array-like sequence of length zero, or a plain
object with zero own enumerable properties. -/
def isEmptyDataClaim (v : JSVal) : Prop :=
  v = .null ∨ v = .undefined ∨
    (∃ s, v = .str s ∧ s.data.all jsIsSpace = true) ∨
    (isArrayLike v = true ∧ getLength v = .num 0) ∨
    v = .obj []

/-- The amended characterization of emptiness: the third clause reads "an
array of length zero" (the native-array test the code performs) instead of
"an array-like sequence of length zero". -/
def isEmptyDataAmended (v : JSVal) : Prop :=
  v = .null ∨ v = .undefined ∨
    (∃ s, v = .str s ∧ s.data.all jsIsSpace = true) ∨
    v = .arr [] ∨
    v = .obj []

/-- The sequence reaches an invalid flag while scanning for the first
non-`"Y"` element: some element fails `ynToBool` and every element before
it is a valid `"Y"` flag. -/
def errorAfterYs (vs : List JSVal) (e : String) : Prop :=
  ∃ pre v suf, vs = pre ++ v :: suf ∧
    (∀ u ∈ pre, ynToBool u = .ok true) ∧ ynToBool v = .error e

/-- The sequence reaches an invalid flag while scanning for the first
non-`"N"` element: some element fails `ynToBool` and every element before
it is a valid `"N"` flag. -/
def errorAfterNs (vs : List JSVal) (e : String) : Prop :=
  ∃ pre v suf, vs = pre ++ v :: suf ∧
    (∀ u ∈ pre, ynToBool u = .ok false) ∧ ynToBool v = .error e

/-- Lookup of an own property value on an ordered field list. -/
def lookupProp : List (String × JSVal) → String → Option JSVal
  | [], _ => none
  | (k', v') :: fs, k => if k' == k then some v' else lookupProp fs k

/-- The first defined option, the spec's "later sources overwrite earlier
ones" read right to left. -/
def firstSome (a b : Option JSVal) : Option JSVal :=
  match a with
  | some v => some v
  | none => b

/-- One step of the source scan for key `k`: an object source carrying `k`
supersedes the value accumulated so far; any other source leaves it. -/
def mergeStep (k : String) (acc : Option JSVal) (s : JSVal) : Option JSVal :=
  match s with
  | .obj sfs => firstSome (lookupProp sfs k) acc
  | _ => acc

/-- The value the last source carrying key `k` assigns to it, if any
(object sources only; other sources carry no own enumerable properties). -/
def lastSourceVal (sources : List JSVal) (k : String) : Option JSVal :=
  sources.foldl (mergeStep k) none

/-- Toy stand-in for the `JSON.parse` builtin used to witness
`tryParseJSON`: accepts exactly the text `"null"`. -/
def toyParse (s : String) : Except JSVal JSVal :=
  if s = ("null") then .ok .null else .error (.str ("SyntaxError: Unexpected token"))

/-- An object source has no duplicate keys (as JavaScript objects cannot);
non-object sources are unconstrained. -/
def keysNodupSource : JSVal → Bool
  | .obj sfs => decide ((sfs.map Prod.fst).Nodup)
  | _ => true

/-! ### Helper lemmas for the batch flag checks -/

theorem allY_eq_not_someN (vs : List JSVal) :
    allY vs = Except.map (fun b => !b) (someN vs) := by
  induction vs with
  | nil => rfl
  | cons v vs ih =>
      cases h : ynToBool v with
      | error e => simp [allY, someN, h, Except.map]
      | ok b => cases b <;> simp [allY, someN, h, ih, Except.map]

theorem allN_eq_not_someY (vs : List JSVal) :
    allN vs = Except.map (fun b => !b) (someY vs) := by
  induction vs with
  | nil => rfl
  | cons v vs ih =>
      cases h : ynToBool v with
      | error e => simp [allN, someY, h, Except.map]
      | ok b => cases b <;> simp [allN, someY, h, ih, Except.map]

theorem except_map_eq_error (f : Bool → Bool) (x : Except String Bool) (e : String) :
    Except.map f x = .error e ↔ x = .error e := by
  cases x <;> simp [Except.map]

theorem errorAfterYs_nil (e : String) : ¬ errorAfterYs [] e := by
  rintro ⟨pre, v, suf, heq, -, -⟩
  exact List.cons_ne_nil v suf (List.append_eq_nil.mp heq.symm).2

theorem errorAfterNs_nil (e : String) : ¬ errorAfterNs [] e := by
  rintro ⟨pre, v, suf, heq, -, -⟩
  exact List.cons_ne_nil v suf (List.append_eq_nil.mp heq.symm).2

theorem errorAfterYs_cons (v : JSVal) (vs : List JSVal) (e : String) :
    errorAfterYs (v :: vs) e ↔
      ynToBool v = .error e ∨ (ynToBool v = .ok true ∧ errorAfterYs vs e) := by
  constructor
  · rintro ⟨pre, w, suf, heq, hpre, hw⟩
    cases pre with
    | nil =>
        rw [List.nil_append] at heq
        injection heq with h1 h2
        subst h1
        exact Or.inl hw
    | cons u pre =>
        rw [List.cons_append] at heq
        injection heq with h1 h2
        subst h1
        refine Or.inr ⟨hpre v (List.mem_cons_self v pre), pre, w, suf, h2, ?_, hw⟩
        intro x hx
        exact hpre x (List.mem_cons_of_mem v hx)
  · rintro (h | ⟨hv, pre, w, suf, heq, hpre, hw⟩)
    · exact ⟨[], v, vs, rfl, by simp, h⟩
    · refine ⟨v :: pre, w, suf, by rw [heq, List.cons_append], ?_, hw⟩
      intro x hx
      rcases List.mem_cons.mp hx with hx' | hx'
      · rw [hx']; exact hv
      · exact hpre x hx'

theorem errorAfterNs_cons (v : JSVal) (vs : List JSVal) (e : String) :
    errorAfterNs (v :: vs) e ↔
      ynToBool v = .error e ∨ (ynToBool v = .ok false ∧ errorAfterNs vs e) := by
  constructor
  · rintro ⟨pre, w, suf, heq, hpre, hw⟩
    cases pre with
    | nil =>
        rw [List.nil_append] at heq
        injection heq with h1 h2
        subst h1
        exact Or.inl hw
    | cons u pre =>
        rw [List.cons_append] at heq
        injection heq with h1 h2
        subst h1
        refine Or.inr ⟨hpre v (List.mem_cons_self v pre), pre, w, suf, h2, ?_, hw⟩
        intro x hx
        exact hpre x (List.mem_cons_of_mem v hx)
  · rintro (h | ⟨hv, pre, w, suf, heq, hpre, hw⟩)
    · exact ⟨[], v, vs, rfl, by simp, h⟩
    · refine ⟨v :: pre, w, suf, by rw [heq, List.cons_append], ?_, hw⟩
      intro x hx
      rcases List.mem_cons.mp hx with hx' | hx'
      · rw [hx']; exact hv
      · exact hpre x hx'

theorem allY_error_iff (vs : List JSVal) (e : String) :
    allY vs = .error e ↔ errorAfterYs vs e := by
  induction vs with
  | nil =>
      simp only [allY]
      exact iff_of_false (by intro h; exact Except.noConfusion h) (errorAfterYs_nil e)
  | cons v vs ih =>
      rw [errorAfterYs_cons]
      cases h : ynToBool v with
      | error e' => simp [allY, h]
      | ok b => cases b <;> simp [allY, h, ih]

theorem someY_error_iff (vs : List JSVal) (e : String) :
    someY vs = .error e ↔ errorAfterNs vs e := by
  induction vs with
  | nil =>
      simp only [someY]
      exact iff_of_false (by intro h; exact Except.noConfusion h) (errorAfterNs_nil e)
  | cons v vs ih =>
      rw [errorAfterNs_cons]
      cases h : ynToBool v with
      | error e' => simp [someY, h]
      | ok b => cases b <;> simp [someY, h, ih]

theorem someN_error_iff (vs : List JSVal) (e : String) :
    someN vs = .error e ↔ errorAfterYs vs e := by
  rw [← allY_error_iff, allY_eq_not_someN, except_map_eq_error]

theorem allN_error_iff (vs : List JSVal) (e : String) :
    allN vs = .error e ↔ errorAfterNs vs e := by
  rw [← someY_error_iff, allN_eq_not_someY, except_map_eq_error]

/-! ### Claims about the batch flag checks -/

/-- C9: on the empty sequence the batch flag checks follow the
vacuous-truth policy: `allY([])` and `allN([])` are `true`, `someY([])` and
`someN([])` are `false`, and none of them raises. -/
theorem claim_C9_empty_sequences :
    allY [] = .ok true ∧ allN [] = .ok true ∧
      someY [] = .ok false ∧ someN [] = .ok false :=
  ⟨rfl, rfl, rfl, rfl⟩

/-- C10: De Morgan duality of the batch flag checks: on every sequence,
`allY` returns a boolean exactly when `someN` returns its negation, and
`allY` raises an error exactly when `someN` raises the same error; likewise
for `allN` and `someY`. -/
theorem claim_C10_de_morgan_duality : ∀ vs : List JSVal,
    (∀ b, allY vs = .ok b ↔ someN vs = .ok (!b)) ∧
    (∀ e, allY vs = .error e ↔ someN vs = .error e) ∧
    (∀ b, allN vs = .ok b ↔ someY vs = .ok (!b)) ∧
    (∀ e, allN vs = .error e ↔ someY vs = .error e) := by
  intro vs
  refine ⟨?_, ?_, ?_, ?_⟩
  · intro b
    rw [allY_eq_not_someN]
    cases h : someN vs with
    | error e => simp [Except.map]
    | ok a => cases a <;> cases b <;> simp [Except.map]
  · intro e
    rw [allY_eq_not_someN, except_map_eq_error]
  · intro b
    rw [allN_eq_not_someY]
    cases h : someY vs with
    | error e => simp [Except.map]
    | ok a => cases a <;> cases b <;> simp [Except.map]
  · intro e
    rw [allN_eq_not_someY, except_map_eq_error]

/-- C2, counterexample: the claim says every sequence containing an invalid
flag makes each of the four batch checks raise; instead, each of the four
returns a boolean on a sequence whose second element `"X"` is invalid per
`ynToBool`, because the scan short-circuits on the first element. -/
theorem claim_C2_counterexample :
    (∃ e, ynToBool (.str ("X")) = .error e) ∧
    allY [.str ("N"), .str ("X")] = .ok false ∧
    someY [.str ("Y"), .str ("X")] = .ok true ∧
    allN [.str ("Y"), .str ("X")] = .ok false ∧
    someN [.str ("N"), .str ("X")] = .ok true :=
  ⟨⟨("The value argument must be \"Y\" or \"N\""), rfl⟩, rfl, rfl, rfl, rfl⟩

/-- C2, amended: each batch check raises `ynToBool`'s error exactly when
the scan reaches an invalid element before short-circuiting: `allY` and
`someN` raise `e` iff some element fails `ynToBool` with `e` and every
element before it is a valid `"Y"` flag; `someY` and `allN` raise `e` iff
some element fails `ynToBool` with `e` and every element before it is a
valid `"N"` flag.  Otherwise they return a boolean. -/
theorem claim_C2_amended : ∀ (vs : List JSVal) (e : String),
    (allY vs = .error e ↔ errorAfterYs vs e) ∧
    (someN vs = .error e ↔ errorAfterYs vs e) ∧
    (someY vs = .error e ↔ errorAfterNs vs e) ∧
    (allN vs = .error e ↔ errorAfterNs vs e) := by
  intro vs e
  exact ⟨allY_error_iff vs e, someN_error_iff vs e,
    someY_error_iff vs e, allN_error_iff vs e⟩

/-! ### Claims about the conversion pair -/

/-- C1: `boolToYN` and `ynToBool` are mutual inverses: converting a boolean
to a flag and back yields the boolean, and converting a string that is
`"Y"`/`"N"` up to case to a boolean and back yields its uppercase
normalization. -/
theorem claim_C1_mutual_inverses :
    (∀ b : Bool, (boolToYN (.bool b)).bind (fun s => ynToBool (.str s)) = .ok b) ∧
    (∀ s : String, jsToUpperCase s = ("Y") ∨ jsToUpperCase s = ("N") →
      ∃ b, ynToBool (.str s) = .ok b ∧
        boolToYN (.bool b) = .ok (jsToUpperCase s)) := by
  constructor
  · intro b
    cases b <;> rfl
  · intro s h
    rcases h with h | h
    · exact ⟨true, by simp [ynToBool, jsToString, h], by simp [boolToYN, h]⟩
    · exact ⟨false, by simp [ynToBool, jsToString, h], by simp [boolToYN, h]⟩

/-- C1, witness: the round trips evaluated at `true` and at the lowercase
flag `"y"`. -/
theorem claim_C1_mutual_inverses_witness :
    (boolToYN (.bool true)).bind (fun s => ynToBool (.str s)) = .ok true ∧
    ∃ b, ynToBool (.str ("y")) = .ok b ∧
      boolToYN (.bool b) = .ok (jsToUpperCase ("y")) :=
  ⟨claim_C1_mutual_inverses.1 true,
    claim_C1_mutual_inverses.2 ("y") (Or.inl rfl)⟩

/-! ### Claims about `isArrayLike` and `isEmptyData` -/

/-- C7: `isArrayLike` returns true exactly for the non-null, non-callable
values whose `length` property is a non-negative integer; in particular it
is true on every array and false on every function. -/
theorem claim_C7_isArrayLike :
    (∀ v, isArrayLike v = true ↔ isArrayLikeSpec v) ∧
    (∀ xs, isArrayLike (.arr xs) = true) ∧
    isArrayLike .func = false := by
  refine ⟨?_, ?_, rfl⟩
  · intro v
    cases v with
    | null => simp [isArrayLike, isNullish, isArrayLikeSpec]
    | undefined => simp [isArrayLike, isNullish, isArrayLikeSpec]
    | func => simp [isArrayLike, isNullish, isFunction, isArrayLikeSpec]
    | bool b => simp [isArrayLike, isNullish, isFunction, getLength, isArrayLikeSpec]
    | num q => simp [isArrayLike, isNullish, isFunction, getLength, isArrayLikeSpec]
    | str s => simp [isArrayLike, isNullish, isFunction, getLength, isArrayLikeSpec]
    | arr xs => simp [isArrayLike, isNullish, isFunction, getLength, isArrayLikeSpec]
    | obj fs =>
        cases hfind : fs.find? (fun kv => kv.1 == ("length")) with
        | none => simp [isArrayLike, isNullish, isFunction, getLength, hfind, isArrayLikeSpec]
        | some kv =>
            cases hv : kv.2 <;>
              simp [isArrayLike, isNullish, isFunction, getLength, hfind, hv, isArrayLikeSpec]
  · intro xs
    simp [isArrayLike, isNullish, isFunction, getLength]

theorem jsTrim_eq_empty_iff (s : String) :
    jsTrim s = ("") ↔ s.data.all jsIsSpace = true := by
  unfold jsTrim
  constructor
  · intro h
    have hl : ((s.data.dropWhile jsIsSpace).reverse.dropWhile jsIsSpace).reverse = [] := by
      have := congrArg String.data h
      simpa using this
    rw [List.reverse_eq_nil_iff, List.dropWhile_eq_nil_iff] at hl
    rw [List.all_eq_true]
    intro x hx
    by_cases hxd : x ∈ s.data.dropWhile jsIsSpace
    · exact hl x (List.mem_reverse.mpr hxd)
    · have hxt : x ∈ s.data.takeWhile jsIsSpace := by
        have hsplit := List.takeWhile_append_dropWhile (p := jsIsSpace) (l := s.data)
        rw [← hsplit] at hx
        rcases List.mem_append.mp hx with h' | h'
        · exact h'
        · exact absurd h' hxd
      exact List.mem_takeWhile_imp hxt
  · intro h
    have h' : ∀ x ∈ s.data, jsIsSpace x := by
      intro x hx
      exact List.all_eq_true.mp h x hx
    have h1 : s.data.dropWhile jsIsSpace = [] := List.dropWhile_eq_nil_iff.mpr h'
    rw [h1]
    rfl

/-- C4, counterexample: the claim requires `isEmptyData` to be true on
every array-like sequence of length zero, but on the array-like object
with a single own property `length: 0` the code takes the plain-object
branch, finds an own property, and returns false. -/
theorem claim_C4_counterexample :
    isEmptyDataClaim (.obj [(("length"), .num 0)]) ∧
    isEmptyData (.obj [(("length"), .num 0)]) = false :=
  ⟨Or.inr (Or.inr (Or.inr (Or.inl ⟨rfl, rfl⟩))), rfl⟩

/-- C4, amended: `isEmptyData` is true exactly for `null`/`undefined`,
strings that are empty or all-whitespace, native arrays of length zero, and
plain objects with zero own enumerable properties (the array clause tests
native arrays, not array-like sequences), and false for every other
value. -/
theorem claim_C4_amended : ∀ v, isEmptyData v = true ↔ isEmptyDataAmended v := by
  intro v
  cases v with
  | null => simp [isEmptyData, isNullish, isEmptyDataAmended]
  | undefined => simp [isEmptyData, isNullish, isEmptyDataAmended]
  | bool b => simp [isEmptyData, isNullish, isEmptyDataAmended]
  | num q => simp [isEmptyData, isNullish, isEmptyDataAmended]
  | func => simp [isEmptyData, isNullish, isEmptyDataAmended]
  | str s =>
      have hdef : isEmptyData (.str s) = (jsTrim s == ("")) := rfl
      rw [hdef, beq_iff_eq, jsTrim_eq_empty_iff]
      simp [isEmptyDataAmended]
  | arr xs =>
      simp [isEmptyData, isNullish, isEmptyDataAmended, List.isEmpty_iff]
  | obj fs =>
      cases fs with
      | nil => simp [isEmptyData, isNullish, isEmptyDataAmended, hasOwnProp]
      | cons kv fs =>
          have hany : (kv :: fs).any (fun kv' => hasOwnProp (.obj (kv :: fs)) kv'.1) = true := by
            apply List.any_eq_true.mpr
            refine ⟨kv, List.mem_cons_self kv fs, ?_⟩
            simp [hasOwnProp]
          simp [isEmptyData, isNullish, hany, isEmptyDataAmended]

/-! ### Claims about `cloneJSON` -/

mutual

theorem jsonRoundTrip_id : ∀ v, isJSONCompatible v = true → jsonRoundTrip v = some v
  | .null, _ => rfl
  | .bool _, _ => rfl
  | .num _, _ => rfl
  | .str _, _ => rfl
  | .undefined, h => by simp [isJSONCompatible] at h
  | .func, h => by simp [isJSONCompatible] at h
  | .arr xs, h => by
      have hxs := jsonRoundTripList_id xs (by simpa [isJSONCompatible] using h)
      simp [jsonRoundTrip, hxs]
  | .obj fs, h => by
      have hfs := jsonRoundTripFields_id fs (by simpa [isJSONCompatible] using h)
      simp [jsonRoundTrip, hfs]

theorem jsonRoundTripList_id :
    ∀ xs, isJSONCompatibleList xs = true → jsonRoundTripList xs = xs
  | [], _ => rfl
  | x :: xs, h => by
      have h' : isJSONCompatible x = true ∧ isJSONCompatibleList xs = true := by
        simpa [isJSONCompatibleList, Bool.and_eq_true] using h
      have hx := jsonRoundTrip_id x h'.1
      have hxs := jsonRoundTripList_id xs h'.2
      simp [jsonRoundTripList, hx, hxs]

theorem jsonRoundTripFields_id :
    ∀ fs, isJSONCompatibleFields fs = true → jsonRoundTripFields fs = fs
  | [], _ => rfl
  | (k, v) :: fs, h => by
      have h' : isJSONCompatible v = true ∧ isJSONCompatibleFields fs = true := by
        simpa [isJSONCompatibleFields, Bool.and_eq_true] using h
      have hv := jsonRoundTrip_id v h'.1
      have hfs := jsonRoundTripFields_id fs h'.2
      simp [jsonRoundTripFields, hv, hfs]

end

/-- C3, counterexample: the claim says `cloneJSON` never raises on any
non-null input, but on a bare function (a non-null value) it raises:
`JSON.stringify` yields no JSON text, so `JSON.parse` receives the string
`"undefined"` and throws a syntax error. -/
theorem claim_C3_counterexample :
    isNullish .func = false ∧
    cloneJSON .func =
      .error ("SyntaxError: Unexpected token u in JSON at position 0") :=
  ⟨rfl, rfl⟩

/-- C3, amended: `cloneJSON` propagates nothing for `null` and `undefined`
(returned unchanged by the nullish short-circuit, before any
serialization) and for every argument whose serialization yields a JSON
text, returning the value with non-serializable array elements nulled and
object fields dropped; it raises a parse error on a non-null argument that
itself serializes to `undefined` (a bare function). -/
theorem claim_C3_amended :
    cloneJSON .null = .ok .null ∧
    cloneJSON .undefined = .ok .undefined ∧
    ∀ v : JSVal,
    (∀ w, jsonRoundTrip v = some w → cloneJSON v = .ok w) ∧
    (jsonRoundTrip v = none → v ≠ .undefined → ∃ e, cloneJSON v = .error e) := by
  refine ⟨rfl, rfl, ?_⟩
  intro v
  constructor
  · intro w hw
    cases v with
    | null =>
        have hnw : JSVal.null = w := by simpa [jsonRoundTrip] using hw
        rw [← hnw]
        rfl
    | undefined => exact Option.noConfusion hw
    | func => exact Option.noConfusion hw
    | bool b => simp [cloneJSON, isNullish, hw]
    | num q => simp [cloneJSON, isNullish, hw]
    | str s => simp [cloneJSON, isNullish, hw]
    | arr xs => simp [cloneJSON, isNullish, hw]
    | obj fs => simp [cloneJSON, isNullish, hw]
  · intro hnone hne
    cases v with
    | undefined => exact absurd rfl hne
    | func => exact ⟨("SyntaxError: Unexpected token u in JSON at position 0"), rfl⟩
    | null => exact Option.noConfusion hnone
    | bool b => exact Option.noConfusion hnone
    | num q => exact Option.noConfusion hnone
    | str s => exact Option.noConfusion hnone
    | arr xs => exact Option.noConfusion hnone
    | obj fs => exact Option.noConfusion hnone

/-- C3, amended, witness: `undefined` is returned unchanged without
raising, a nested function field is silently dropped while the clone
succeeds, and a bare function makes the clone raise. -/
theorem claim_C3_amended_witness :
    cloneJSON .undefined = .ok .undefined ∧
    cloneJSON (.obj [(("f"), .func), (("a"), .num 1)]) =
      .ok (.obj [(("a"), .num 1)]) ∧
    (∃ e, cloneJSON .func = .error e) :=
  ⟨claim_C3_amended.2.1,
    (claim_C3_amended.2.2 (.obj [(("f"), .func), (("a"), .num 1)])).1
      (.obj [(("a"), .num 1)]) rfl,
    (claim_C3_amended.2.2 .func).2 rfl (fun h => JSVal.noConfusion h)⟩

/-- C8: `cloneJSON` returns `null` and `undefined` arguments unchanged, and
on every JSON-compatible value the serialize-then-parse round trip returns
a deeply equal copy (value equality is the observable content of structural
independence in this model: the parse builds the result afresh from the
serialized text). -/
theorem claim_C8_clone_roundtrip :
    cloneJSON .null = .ok .null ∧ cloneJSON .undefined = .ok .undefined ∧
    ∀ v, isJSONCompatible v = true → cloneJSON v = .ok v := by
  refine ⟨rfl, rfl, ?_⟩
  intro v h
  have hrt := jsonRoundTrip_id v h
  cases v <;> first | rfl | simp [cloneJSON, isNullish, hrt]

/-- C8, witness: the round trip at the spec's example value. -/
theorem claim_C8_clone_roundtrip_witness :
    cloneJSON (.obj [(("a"), .num 1), (("b"), .arr [.num 1, .num 2])]) =
      .ok (.obj [(("a"), .num 1), (("b"), .arr [.num 1, .num 2])]) :=
  claim_C8_clone_roundtrip.2.2
    (.obj [(("a"), .num 1), (("b"), .arr [.num 1, .num 2])]) rfl

/-! ### Claims about `extend` and `tryParseJSON` -/

theorem extendSingle_null (t : JSVal) : extendSingle t .null = t := by
  cases t <;> rfl

theorem extendSingle_undefined (t : JSVal) : extendSingle t .undefined = t := by
  cases t <;> rfl

theorem lookupProp_eq_none (fs : List (String × JSVal)) (k : String)
    (h : k ∉ fs.map Prod.fst) : lookupProp fs k = none := by
  induction fs with
  | nil => rfl
  | cons kv fs ih =>
      obtain ⟨k', v'⟩ := kv
      rw [List.map_cons, List.mem_cons] at h
      push_neg at h
      have h1 : (k' == k) = false := by
        rw [beq_eq_false_iff_ne]
        exact fun he => h.1 he.symm
      simp [lookupProp, h1, ih h.2]

theorem lookupProp_setProp (fs : List (String × JSVal)) (k₀ k : String) (v₀ : JSVal) :
    lookupProp (setProp fs k₀ v₀) k =
      if k₀ == k then some v₀ else lookupProp fs k := by
  induction fs with
  | nil => cases h : (k₀ == k) <;> simp [setProp, lookupProp, h]
  | cons kv fs ih =>
      obtain ⟨k', v'⟩ := kv
      cases h1 : (k' == k₀) with
      | false =>
          cases h2 : (k' == k) with
          | false => simp [setProp, h1, lookupProp, h2, ih]
          | true =>
              have h3 : (k₀ == k) = false := by
                rw [beq_eq_false_iff_ne]
                rw [beq_eq_false_iff_ne] at h1
                rw [beq_iff_eq] at h2
                intro hk
                exact h1 (h2.trans hk.symm)
              simp [setProp, h1, lookupProp, h2, h3]
      | true =>
          have hk' : k' = k₀ := by rwa [beq_iff_eq] at h1
          subst hk'
          cases h2 : (k' == k) <;> simp [setProp, lookupProp, h2]

theorem lookupProp_foldl_setProp (sfs : List (String × JSVal)) :
    ∀ (fs : List (String × JSVal)) (k : String),
    (sfs.map Prod.fst).Nodup →
    lookupProp (sfs.foldl (fun acc kv => setProp acc kv.1 kv.2) fs) k =
      firstSome (lookupProp sfs k) (lookupProp fs k) := by
  induction sfs with
  | nil =>
      intro fs k _
      simp [lookupProp, firstSome]
  | cons kv sfs ih =>
      intro fs k hnd
      obtain ⟨k₀, v₀⟩ := kv
      rw [List.map_cons, List.nodup_cons] at hnd
      rw [List.foldl_cons]
      rw [ih (setProp fs k₀ v₀) k hnd.2]
      rw [lookupProp_setProp]
      cases h : (k₀ == k) with
      | false => simp [lookupProp, h]
      | true =>
          have hk : k₀ = k := by rwa [beq_iff_eq] at h
          have hnone : lookupProp sfs k = none := by
            apply lookupProp_eq_none
            rw [← hk]
            exact hnd.1
          simp [lookupProp, h, hnone, firstSome]

theorem foldl_mergeStep (k : String) :
    ∀ (sources : List JSVal) (acc : Option JSVal),
    sources.foldl (mergeStep k) acc = firstSome (lastSourceVal sources k) acc := by
  intro sources
  induction sources with
  | nil => intro acc; simp [lastSourceVal, firstSome]
  | cons s rest ih =>
      intro acc
      rw [List.foldl_cons, ih]
      have hcons : lastSourceVal (s :: rest) k =
          rest.foldl (mergeStep k) (mergeStep k none s) := rfl
      rw [hcons, ih]
      cases hl : lastSourceVal rest k with
      | some v => simp [firstSome]
      | none =>
          cases s with
          | obj sfs =>
              cases hlk : lookupProp sfs k <;> simp [mergeStep, hlk, firstSome]
          | null => simp [mergeStep, firstSome]
          | undefined => simp [mergeStep, firstSome]
          | bool b => simp [mergeStep, firstSome]
          | num q => simp [mergeStep, firstSome]
          | str s => simp [mergeStep, firstSome]
          | arr xs => simp [mergeStep, firstSome]
          | func => simp [mergeStep, firstSome]

theorem extend_obj_lookup :
    ∀ (sources : List JSVal) (fs : List (String × JSVal)) (k : String),
    (∀ s ∈ sources, keysNodupSource s = true) →
    ∃ gs, sources.foldl extendSingle (JSVal.obj fs) = .obj gs ∧
      lookupProp gs k = firstSome (lastSourceVal sources k) (lookupProp fs k) := by
  intro sources
  induction sources with
  | nil =>
      intro fs k _
      exact ⟨fs, rfl, by simp [lastSourceVal, firstSome]⟩
  | cons s rest ih =>
      intro fs k h
      have hrest : ∀ s' ∈ rest, keysNodupSource s' = true :=
        fun s' hs' => h s' (List.mem_cons_of_mem s hs')
      cases s with
      | obj sfs =>
          have hnd : (sfs.map Prod.fst).Nodup :=
            of_decide_eq_true
              (by simpa [keysNodupSource] using h (.obj sfs) (List.mem_cons_self _ _))
          obtain ⟨gs, hgs, hlook⟩ :=
            ih (sfs.foldl (fun acc kv => setProp acc kv.1 kv.2) fs) k hrest
          refine ⟨gs, ?_, ?_⟩
          · rw [List.foldl_cons]
            exact hgs
          · rw [hlook, lookupProp_foldl_setProp sfs fs k hnd]
            have hcons : lastSourceVal (JSVal.obj sfs :: rest) k =
                rest.foldl (mergeStep k) (firstSome (lookupProp sfs k) none) := rfl
            rw [hcons, foldl_mergeStep]
            cases lastSourceVal rest k <;> cases lookupProp sfs k <;> simp [firstSome]
      | null =>
          obtain ⟨gs, hgs, hlook⟩ := ih fs k hrest
          exact ⟨gs, by rw [List.foldl_cons, extendSingle_null]; exact hgs,
            by rw [hlook]; rfl⟩
      | undefined =>
          obtain ⟨gs, hgs, hlook⟩ := ih fs k hrest
          exact ⟨gs, by rw [List.foldl_cons, extendSingle_undefined]; exact hgs,
            by rw [hlook]; rfl⟩
      | bool b =>
          obtain ⟨gs, hgs, hlook⟩ := ih fs k hrest
          exact ⟨gs, by rw [List.foldl_cons]; exact hgs, by rw [hlook]; rfl⟩
      | num q =>
          obtain ⟨gs, hgs, hlook⟩ := ih fs k hrest
          exact ⟨gs, by rw [List.foldl_cons]; exact hgs, by rw [hlook]; rfl⟩
      | str s' =>
          obtain ⟨gs, hgs, hlook⟩ := ih fs k hrest
          exact ⟨gs, by rw [List.foldl_cons]; exact hgs, by rw [hlook]; rfl⟩
      | arr xs =>
          obtain ⟨gs, hgs, hlook⟩ := ih fs k hrest
          exact ⟨gs, by rw [List.foldl_cons]; exact hgs, by rw [hlook]; rfl⟩
      | func =>
          obtain ⟨gs, hgs, hlook⟩ := ih fs k hrest
          exact ⟨gs, by rw [List.foldl_cons]; exact hgs, by rw [hlook]; rfl⟩

/-- C5: `extend` raises immediately when the target is `null`/`undefined`;
`null`/`undefined` sources anywhere in the argument list are skipped
without error; and on an object target every key ends up bound to the
value the last source carrying that key assigns, falling back to the
target's own value, later sources thus overwriting earlier ones and the
target's pre-existing properties. -/
theorem claim_C5_extend :
    (∀ sources, (∃ e, extend .null sources = .error e) ∧
      (∃ e, extend .undefined sources = .error e)) ∧
    (∀ t pre post,
      extend t (pre ++ .null :: post) = extend t (pre ++ post) ∧
      extend t (pre ++ .undefined :: post) = extend t (pre ++ post)) ∧
    (∀ fs sources k, (∀ s ∈ sources, keysNodupSource s = true) →
      ∃ gs, extend (.obj fs) sources = .ok (.obj gs) ∧
        lookupProp gs k = firstSome (lastSourceVal sources k) (lookupProp fs k)) := by
  refine ⟨?_, ?_, ?_⟩
  · intro sources
    exact ⟨⟨("The target argument cannot be null or undefined"), rfl⟩,
      ⟨("The target argument cannot be null or undefined"), rfl⟩⟩
  · intro t pre post
    constructor
    · cases ht : isNullish t with
      | true => simp [extend, ht]
      | false =>
          simp only [extend, ht, Bool.false_eq_true, if_false]
          rw [List.foldl_append, List.foldl_append, List.foldl_cons, extendSingle_null]
    · cases ht : isNullish t with
      | true => simp [extend, ht]
      | false =>
          simp only [extend, ht, Bool.false_eq_true, if_false]
          rw [List.foldl_append, List.foldl_append, List.foldl_cons,
            extendSingle_undefined]
  · intro fs sources k h
    obtain ⟨gs, hgs, hlook⟩ := extend_obj_lookup sources fs k h
    exact ⟨gs, by simp [extend, isNullish, hgs], hlook⟩

/-- C5, witness: the spec's example `extend(a1, b2, a3)`, whose resulting
binding for key `"a"` is the last source's, plus the raise on a null
target. -/
theorem claim_C5_extend_witness :
    (∃ e, extend .null [] = .error e) ∧
    ∃ gs, extend (.obj [(("a"), .num 1)])
        [.obj [(("b"), .num 2)], .obj [(("a"), .num 3)]] = .ok (.obj gs) ∧
      lookupProp gs ("a") =
        firstSome
          (lastSourceVal [.obj [(("b"), .num 2)], .obj [(("a"), .num 3)]] ("a"))
          (lookupProp [(("a"), .num 1)] ("a")) :=
  ⟨(claim_C5_extend.1 []).1,
    claim_C5_extend.2.2 [(("a"), .num 1)]
      [.obj [(("b"), .num 2)], .obj [(("a"), .num 3)]] ("a") (by decide)⟩

/-- C6: `tryParseJSON` never raises: it is a total function of the parse
outcome; on a successful parse it returns the parsed value and invokes no
callback, and on a parse failure it hands the thrown error to `onError`
and returns `undefined`. -/
theorem claim_C6_tryParseJSON :
    ∀ (parse : String → Except JSVal JSVal) (str : String),
    (∀ v, parse str = .ok v → tryParseJSON parse str = (v, none)) ∧
    (∀ e, parse str = .error e → tryParseJSON parse str = (.undefined, some e)) := by
  intro parse str
  constructor
  · intro v hv
    simp [tryParseJSON, hv]
  · intro e he
    simp [tryParseJSON, he]

/-- C6, witness: the toy parse builtin evaluated on a parsable and an
unparsable string. -/
theorem claim_C6_tryParseJSON_witness :
    tryParseJSON toyParse ("null") = (.null, none) ∧
    tryParseJSON toyParse ("not json") =
      (.undefined, some (.str ("SyntaxError: Unexpected token"))) :=
  ⟨(claim_C6_tryParseJSON toyParse ("null")).1 .null rfl,
    (claim_C6_tryParseJSON toyParse ("not json")).2
      (.str ("SyntaxError: Unexpected token")) rfl⟩

end PolyvUtils
